/-
Verification of the maude-cli federated query engine and ingestion pipeline
against its natural-language specification.

The Python sources under maudecli/ are shallowly embedded below: JSON-like
record values become the inductive `Value`, dictionaries become association
lists, generators are evaluated eagerly (their only consumer, str.join,
materialises them fully before use), and every statement that can raise a
Python exception is modelled in the `Except PyErr` monad.
-/

import Mathlib

set_option autoImplicit false

namespace MaudeCli

/-- A JSON-like Python value: records returned by the openfda API are
arbitrarily nested dicts, lists, strings and numbers. -/
inductive Value where
  | str (s : String) : Value
  | num (n : Int) : Value
  | dict (kvs : List (String × Value)) : Value
  | arr (vs : List Value) : Value

/-- Python exceptions that the modelled code can raise. -/
inductive PyErr where
  /-- KeyError raised by indexing a dict with a missing key. -/
  | keyError (k : String) : PyErr
  /-- TypeError, e.g. indexing a non-dict with a string key, joining
  non-string values, or calling a function with a missing required
  argument. -/
  | typeError : PyErr
  /-- AttributeError, e.g. calling .get on a non-dict value. -/
  | attrError : PyErr
  /-- NameError raised when evaluating an unbound local name. -/
  | nameError (x : String) : PyErr
  /-- ValueError, e.g. int() applied to a non-numeric string, or the
  malformed-URL check in fetch_results. -/
  | valueError : PyErr
  /-- APIResponseError(status_code, message) from maudecli.errors; the
  message is whatever value the handler extracted from the JSON body. -/
  | apiResponse (status : Nat) (message : Value) : PyErr
  /-- APIRateLimitError(reset_time) from maudecli.errors. -/
  | rateLimit (resetTime : Option Int) : PyErr

/-- Membership-style lookup in a Python dict modelled as an association
list: the first binding of the key wins. -/
def lookupDict (kvs : List (String × Value)) (k : String) : Option Value :=
  match kvs with
  | [] => none
  | (k', v) :: rest => if k' = k then some v else lookupDict rest k

/-- Python expression obj[k]: succeeds on a dict containing k, raises
KeyError on a dict missing k, and TypeError on any non-dict value. -/
def indexKey (v : Value) (k : String) : Except PyErr Value :=
  match v with
  | .dict kvs =>
    match lookupDict kvs k with
    | some w => Except.ok w
    | none => Except.error (PyErr.keyError k)
  | _ => Except.error PyErr.typeError

/-- The list wrapping at the top of _get_item_text: a list is left as is,
any other value becomes a singleton list (api.py lines 196-197). -/
def asItems (v : Value) : List Value :=
  match v with
  | .arr vs => vs
  | v => [v]

/-- Python str.lower on a single character (ASCII, which is all the MAUDE
sources use). -/
def charLower (c : Char) : Char :=
  if 65 ≤ c.toNat ∧ c.toNat ≤ 90 then Char.ofNat (c.toNat + 32) else c

/-- Python str.lower. -/
def pyLower (s : String) : String :=
  String.mk (s.data.map charLower)

/-- Helper for pySplitDot: accumulate the current segment (reversed). -/
def splitDotAux : List Char → List Char → List String
  | [], acc => [String.mk acc.reverse]
  | c :: cs, acc =>
    if c = '.' then String.mk acc.reverse :: splitDotAux cs []
    else splitDotAux cs (c :: acc)

/-- Python field.split of a string on the dot separator, as used for dotted
field paths; an input without dots yields a singleton list. -/
def pySplitDot (s : String) : List String :=
  splitDotAux s.data []

/-- Whether the character list `pre` is an initial segment of `l`. -/
def leadsWith : List Char → List Char → Bool
  | [], _ => true
  | _ :: _, [] => false
  | a :: as, b :: bs => a == b && leadsWith as bs

/-- Whether `needle` occurs as a contiguous sublist of `hay`; this is the
Python substring operator `needle in hay` on strings. -/
def hasSub (hay needle : List Char) : Bool :=
  match hay with
  | [] => needle.isEmpty
  | _ :: t => leadsWith needle hay || hasSub t needle

/-- Python `needle in hay` for strings. -/
def strHas (hay needle : String) : Bool :=
  hasSub hay.data needle.data

/-- The recursive field-path extractor _get_item_text (api.py lines
195-205), evaluated on a worklist of items: for each item, index the next
dotted segment unconditionally; when further segments remain, recurse into
the indexed value (wrapping non-lists as singletons), otherwise yield the
indexed value.  Errors surface in the order Python raises them. -/
def getItemTextGo (f : String) (deeper : Value → Except PyErr (List Value)) :
    List Value → Except PyErr (List Value)
  | [] => Except.ok []
  | obj :: objs => do
    let v ← indexKey obj f
    let head ← deeper v
    let tail ← getItemTextGo f deeper objs
    Except.ok (head ++ tail)

/-- Dispatch of _get_item_text on the split field path: on the last segment
the indexed values themselves are yielded, otherwise extraction recurses
into the indexed value with the remaining segments. -/
def getItemTextL : List String → List Value → Except PyErr (List Value)
  | [], _ => Except.ok []
  | [f], objs => getItemTextGo f (fun v => Except.ok [v]) objs
  | f :: r :: rs, objs =>
    getItemTextGo f (fun v => getItemTextL (r :: rs) (asItems v)) objs

/-- Entry point of _get_item_text: split the dotted field path and walk the
record. -/
def get_item_text (item : Value) (field : String) : Except PyErr (List Value) :=
  getItemTextL (pySplitDot field) (asItems item)

/-- Python " ".join(values): materialises the values and requires every one
to be a string, raising TypeError otherwise. -/
def joinText (vs : List Value) : Except PyErr String :=
  match vs with
  | [] => Except.ok ""
  | .str s :: rest => (joinText rest).map (fun r => if rest.isEmpty then s else s ++ " " ++ r)
  | _ => Except.error PyErr.typeError

/-- The text a record exposes at a dotted field path:
" ".join(_get_item_text(r, field)) as evaluated inside filter_results
(api.py line 221). -/
def recordText (r : Value) (field : String) : Except PyErr String := do
  joinText (← get_item_text r field)

/-- The inner generator of filter_results (api.py lines 220-223):
all(term.lower() not in text.lower() for term in terms).  The text is only
computed once a term is examined, so an empty group never touches the
record. -/
def groupKeeps (r : Value) (field : String) : List String → Except PyErr Bool
  | [] => Except.ok true
  | t :: ts => do
    let txt ← recordText r field
    if strHas (pyLower txt) (pyLower t) then Except.ok false
    else groupKeeps r field ts

/-- The outer generator of filter_results (api.py lines 219-225):
all(... for terms in exclude_terms), short-circuiting on the first group
whose inner check fails. -/
def recordKeeps (r : Value) (field : String) : List (List String) → Except PyErr Bool
  | [] => Except.ok true
  | g :: gs => do
    let b ← groupKeeps r field g
    if b then recordKeeps r field gs else Except.ok false

/-- The list comprehension of filter_results: keep the records whose
exclusion check succeeds, evaluating records left to right. -/
def filterKeep : List Value → List (List String) → String → Except PyErr (List Value)
  | [], _, _ => Except.ok []
  | r :: rs, ets, field => do
    let b ← recordKeeps r field ets
    let tail ← filterKeep rs ets field
    Except.ok (if b then r :: tail else tail)

/-- filter_results (api.py lines 208-226): with no exclusion terms the
input is returned unchanged, otherwise records matching the exclusion check
are removed. -/
def filter_results (results : List Value) (exclude_terms : Option (List (List String)))
    (field : String) : Except PyErr (List Value) :=
  match exclude_terms with
  | none => Except.ok results
  | some ets =>
    if ets.isEmpty then Except.ok results
    else filterKeep results ets field

/-- classify_file (db.py lines 84-105): case-insensitive filename substring
matching in fixed priority order foitext, foidev, device. -/
def classify_file (filename : String) : Option String :=
  let filename_lower := pyLower filename
  if strHas filename_lower "foitext" then some "foitext"
  else if strHas filename_lower "foidev" then some "foidev"
  else if strHas filename_lower "device" then some "device"
  else none

/-! Local query path: the per-row exclusion check inside
query_local_database (db.py lines 584-605), as a function of the text the
row exposes at the search field. -/

/-- The inner term loop (db.py lines 589-594): group_matches becomes true
as soon as some term of the group occurs case-insensitively in the field
value, with an early break. -/
def localGroupMatches (fieldValue : String) : List String → Bool
  | [] => false
  | t :: ts =>
    if strHas (pyLower fieldValue) (pyLower t) then true
    else localGroupMatches fieldValue ts

/-- The outer group loop (db.py lines 586-598): should_exclude starts true
and drops to false, with an early break, at the first group with no
matching term. -/
def localShouldExclude (fieldValue : String) : List (List String) → Bool
  | [] => true
  | g :: gs =>
    if localGroupMatches fieldValue g then localShouldExclude fieldValue gs
    else false

/-- Whether the local query path keeps a row (db.py lines 585-601): the
exclusion machinery only runs when exclude_terms is truthy, and a row is
skipped exactly when should_exclude survives the group loop. -/
def localKeeps (fieldValue : String) (exclude_terms : Option (List (List String))) : Bool :=
  match exclude_terms with
  | none => true
  | some ets =>
    if ets.isEmpty then true
    else !(localShouldExclude fieldValue ets)

/-! Local store schema: create_tables (db.py lines 108-155). -/

/-- A column of a SQLite table in the local store. -/
structure Column where
  name : String
  primaryKey : Bool
  deriving DecidableEq, Repr

/-- A table of the local store, by name and columns. -/
structure Table where
  name : String
  columns : List Column
  deriving DecidableEq, Repr

/-- Semantics of CREATE TABLE IF NOT EXISTS on a store modelled as the
list of its tables in creation order. -/
def createTableIfNotExists (store : List Table) (t : Table) : List Table :=
  if store.any (fun tb => tb.name == t.name) then store else store ++ [t]

/-- The ingestion_log schema (db.py lines 118-126). -/
def ingestion_log_table : Table :=
  ⟨"ingestion_log",
   [⟨"file_name", true⟩, ⟨"file_hash", false⟩, ⟨"record_type", false⟩,
    ⟨"rows_ingested", false⟩, ⟨"ingestion_timestamp", false⟩]⟩

/-- The device schema (db.py lines 129-133). -/
def device_table : Table := ⟨"device", [⟨"row_hash", true⟩]⟩

/-- The foitext schema (db.py lines 136-140). -/
def foitext_table : Table := ⟨"foitext", [⟨"row_hash", true⟩]⟩

/-- The foidev schema (db.py lines 143-147). -/
def foidev_table : Table := ⟨"foidev", [⟨"row_hash", true⟩]⟩

/-- The local names bound in the body of create_tables when control
reaches the index-creation statement at db.py line 150: only the
parameter conn and the local cursor. -/
def createTablesLocals : List String := ["conn", "cursor"]

/-- Evaluating a name inside an f-string: NameError when the name is
unbound in the enclosing scope. -/
def evalName (env : List String) (x : String) : Except PyErr String :=
  if env.contains x then Except.ok x else Except.error (PyErr.nameError x)

/-- create_tables (db.py lines 108-155): four CREATE TABLE IF NOT EXISTS
statements, then an index-creation statement whose f-string interpolates
the names table and field, neither of which is bound in the function, and
finally the commit.  The f-string is evaluated before the execute call, so
the unbound names raise before the index statement or the commit run. -/
def create_tables (store : List Table) : Except PyErr (List Table) := do
  let store := createTableIfNotExists store ingestion_log_table
  let store := createTableIfNotExists store device_table
  let store := createTableIfNotExists store foitext_table
  let store := createTableIfNotExists store foidev_table
  let t ← evalName createTablesLocals "table"
  let f ← evalName createTablesLocals "field"
  let _ := "CREATE INDEX IF NOT EXISTS idx_" ++ t ++ "_" ++ f
  Except.ok store

/-! Term compilation and query rendering (api.py). -/

/-- An argument of fetch_results: Python distinguishes a bare string from
any other iterable of stringifiable terms. -/
inductive TermSpec where
  | str (s : String) : TermSpec
  | group (ts : List String) : TermSpec
  deriving DecidableEq, Repr

/-- _validate_search_terms (api.py lines 37-56) restricted to its
non-raising inputs: a bare string is promoted to a singleton group, an
iterable of strings becomes a group of those strings (str applied to a
string is the string itself). -/
def validate_search_terms : List TermSpec → List (List String)
  | [] => []
  | TermSpec.str s :: rest => [s] :: validate_search_terms rest
  | TermSpec.group g :: rest => g :: validate_search_terms rest

/-- The query rendering inside fetch_results (api.py lines 111-113): each
group parenthesized with its terms joined by +OR+, and the groups joined
by +AND+. -/
def renderQuery (keywords : List (List String)) : String :=
  String.intercalate "+AND+"
    (keywords.map (fun kw => "(" ++ String.intercalate "+OR+" kw ++ ")"))

/-- Python query.replace applied to spaces, substituting the URL-safe plus
separator (api.py line 33). -/
def pyReplaceSpacePlus (s : String) : String :=
  String.mk (s.data.map (fun c => if c = ' ' then '+' else c))

/-- construct_url (api.py lines 24-34). -/
def construct_url (base_url query : String) (limit : Nat) (sort : Option String) : String :=
  let sortStr := match sort with | none => "" | some s => "&sort=" ++ s
  let encoded_query := pyReplaceSpacePlus query
  base_url ++ ":" ++ encoded_query ++ "&limit=" ++ toString limit ++ sortStr

/-! HTTP error handling of fetch_results (api.py lines 164-177). -/

/-- Accumulate the value of a digit run; none when a non-digit appears. -/
def digitsVal : List Char → Nat → Option Nat
  | [], acc => some acc
  | c :: rest, acc =>
    if c.isDigit then digitsVal rest (acc * 10 + (c.toNat - 48)) else none

/-- Python int() on a string: optional surrounding whitespace, an optional
sign, then at least one digit; anything else raises ValueError, modelled
as none. -/
def pyInt (s : String) : Option Int :=
  let cs := ((s.data.dropWhile Char.isWhitespace).reverse.dropWhile Char.isWhitespace).reverse
  match cs with
  | [] => none
  | '+' :: rest =>
    if rest.isEmpty then none else (digitsVal rest 0).map Int.ofNat
  | '-' :: rest =>
    if rest.isEmpty then none else (digitsVal rest 0).map (fun n => -(n : Int))
  | _ => (digitsVal cs 0).map Int.ofNat

/-- Python dict .get(key, default): AttributeError on non-dict values. -/
def dictGet (v : Value) (k : String) (dflt : Value) : Except PyErr Value :=
  match v with
  | .dict kvs =>
    match lookupDict kvs k with
    | some w => Except.ok w
    | none => Except.ok dflt
  | _ => Except.error PyErr.attrError

/-- The HTTPError handler of fetch_results (api.py lines 164-177), as a
function of the response status code, the X-RateLimit-Reset header (none
when absent, otherwise its string value) and the decoded JSON body of the
error response (none when the body is not valid JSON).  Returns the
exception fetch_results raises.  On a non-429 status with an unparseable
body, the except block calls logger.exception() without its required
message argument, so a TypeError from that call propagates in place of the
intended APIResponseError; a .get on a non-dict body raises AttributeError
into the same except block with the same outcome. -/
def fetchHTTPError (code : Nat) (resetHeader : Option String) (body : Option Value) : PyErr :=
  if code = 429 then
    match resetHeader with
    | none => PyErr.rateLimit none
    | some s =>
      if s = "" then PyErr.rateLimit none
      else
        match pyInt s with
        | some n => PyErr.rateLimit (some n)
        | none => PyErr.valueError
  else
    match body with
    | none => PyErr.typeError
    | some bodyVal =>
      match dictGet bodyVal "error" (Value.dict []) with
      | Except.error _ => PyErr.typeError
      | Except.ok errVal =>
        match dictGet errVal "message" (Value.str "Unknown error") with
        | Except.error _ => PyErr.typeError
        | Except.ok msg => PyErr.apiResponse code msg

/-! The paging loop of fetch_results (api.py lines 118-192). -/

/-- A parsed response of the endpoint, with the pieces the paging loop
reads: the HTTP status, the value of the error key of the JSON envelope
when present, the results array, whether the envelope has a meta key, and
the raw Link header when present. -/
structure APIResponse where
  status : Nat
  errorVal : Option Value
  results : List Value
  hasMeta : Bool
  linkHeader : Option String

/-- Python str.startswith. -/
def pyStartsWith (s p : String) : Bool :=
  leadsWith p.data s.data

/-- The Link-header slicing of fetch_results (api.py lines 157-159): start
is the index after the first opening angle bracket (position zero when
there is none, since find returns -1), the end is the index of the first
closing angle bracket (the last character of the string when there is
none, by Python slice semantics for -1), and the URL is the slice between
them. -/
def extractLink (h : String) : String :=
  let cs := h.data
  let start : Nat :=
    match cs.findIdx? (fun a => a == '<') with
    | some i => i + 1
    | none => 0
  let stop : Nat :=
    match cs.findIdx? (fun a => a == '>') with
    | some i => i
    | none => cs.length - 1
  String.mk ((cs.drop start).take (stop - start))

/-- The next-URL computation at the bottom of the paging loop (api.py
lines 155-162) combined with the while condition: a missing or empty
header stops the loop, otherwise the extracted slice is followed when it
is nonempty and stops the loop when it is empty. -/
def nextUrl (linkHeader : Option String) : Option String :=
  match linkHeader with
  | none => none
  | some h =>
    if h = "" then none
    else
      let u := extractLink h
      if u = "" then none else some u

/-- One search-field paging loop of fetch_results (api.py lines 118-188),
over a pure server model mapping request URLs to parsed responses.  The
fuel argument bounds the number of iterations so the function is total:
none means the fuel ran out before the loop finished.  The state is the
current url (none when the loop has exited), the accumulated filtered
results, and the page counter, both of which the real code shares across
search fields.  Each iteration: reject a non-http url, raise the envelope
error if present, filter the page and accumulate (the walrus condition
only extends on a nonempty filtered page), count the page, read meta
(KeyError when absent), stop when the accumulated results reach the limit
or a nonzero max_pages is reached, and otherwise continue to the link
target. -/
def fetchPages (server : String → APIResponse)
    (exclude_terms : Option (List (List String))) (field : String)
    (limit maxPages : Nat) :
    Nat → Option String → List Value → Nat →
    Option (Except PyErr (List Value × Nat))
  | _, none, results, pages => some (Except.ok (results, pages))
  | 0, some _, _, _ => none
  | fuel + 1, some url, results, pages =>
    if !(pyStartsWith url "http:" || pyStartsWith url "https:") then
      some (Except.error PyErr.valueError)
    else
      let resp := server url
      match resp.errorVal with
      | some ev =>
        match dictGet ev "message" (Value.str "Unknown API error") with
        | Except.error e => some (Except.error e)
        | Except.ok msg => some (Except.error (PyErr.apiResponse resp.status msg))
      | none =>
        match filter_results resp.results exclude_terms field with
        | Except.error e => some (Except.error e)
        | Except.ok fr =>
          let results' := if fr.isEmpty then results else results ++ fr
          let pages' := pages + 1
          if !resp.hasMeta then some (Except.error (PyErr.keyError "meta"))
          else if limit ≤ results'.length ∨ (maxPages ≠ 0 ∧ maxPages ≤ pages') then
            some (Except.ok (results', pages'))
          else
            fetchPages server exclude_terms field limit maxPages fuel
              (nextUrl resp.linkHeader) results' pages'

/-! Concrete records used by the examples of the specification. -/

/-- A record whose mdr_text.text field reads MRI report. -/
def mriReportRec : Value :=
  Value.dict [("mdr_text", Value.dict [("text", Value.str "MRI report")])]

/-- A record whose mdr_text.text field reads Artifact in MRI. -/
def artifactRec : Value :=
  Value.dict [("mdr_text", Value.dict [("text", Value.str "Artifact in MRI")])]

/-- A record whose mdr_text.text field reads Artifact with metal. -/
def artifactMetalRec : Value :=
  Value.dict [("mdr_text", Value.dict [("text", Value.str "Artifact with metal")])]

/-- A record with no text key at all. -/
def missingFieldRec : Value := Value.dict [("other", Value.str "x")]

/-! Helper lemmas shared by the claim theorems. -/

/-- Monadic bind on a successful Except value. -/
@[simp] theorem exceptBindOk {ε α β : Type} (a : α) (f : α → Except ε β) :
    (Except.ok a >>= f : Except ε β) = f a := rfl

/-- Monadic bind on a failed Except value. -/
@[simp] theorem exceptBindErr {ε α β : Type} (e : ε) (f : α → Except ε β) :
    (Except.error e >>= f : Except ε β) = Except.error e := rfl

/-- A conjunction of negations over a list is the negation of the
disjunction. -/
theorem list_all_not {α : Type} (l : List α) (p : α → Bool) :
    l.all (fun x => !(p x)) = !(l.any p) := by
  induction l with
  | nil => rfl
  | cons a as ih => simp [List.all_cons, List.any_cons, ih, Bool.not_or]

/-- The local per-group matching loop is a disjunction over the group. -/
theorem localGroupMatches_any (txt : String) (g : List String) :
    localGroupMatches txt g = g.any (fun t => strHas (pyLower txt) (pyLower t)) := by
  induction g with
  | nil => rfl
  | cons t ts ih =>
    simp only [localGroupMatches, List.any_cons]
    by_cases hm : strHas (pyLower txt) (pyLower t) = true
    · simp [hm]
    · simp only [Bool.not_eq_true] at hm
      simp [hm, ih]

/-- When text extraction succeeds, the inner exclusion generator computes
the conjunction of the per-term non-matches. -/
theorem groupKeeps_ok (r : Value) (field txt : String)
    (h : recordText r field = Except.ok txt) (g : List String) :
    groupKeeps r field g
      = Except.ok (g.all (fun t => !(strHas (pyLower txt) (pyLower t)))) := by
  induction g with
  | nil => rfl
  | cons t ts ih =>
    simp only [groupKeeps, h, List.all_cons]
    by_cases hm : strHas (pyLower txt) (pyLower t) = true
    · simp [Except.bind, hm]
    · simp only [Bool.not_eq_true] at hm
      simp [Except.bind, hm, ih]

/-- When text extraction succeeds, the exclusion check of a record is the
conjunction over groups of the conjunction of per-term non-matches. -/
theorem recordKeeps_ok (r : Value) (field txt : String)
    (h : recordText r field = Except.ok txt) (ets : List (List String)) :
    recordKeeps r field ets
      = Except.ok (ets.all (fun g => g.all (fun t => !(strHas (pyLower txt) (pyLower t))))) := by
  induction ets with
  | nil => rfl
  | cons g gs ih =>
    simp only [recordKeeps, groupKeeps_ok r field txt h, List.all_cons]
    by_cases hg : g.all (fun t => !(strHas (pyLower txt) (pyLower t))) = true
    · simp [Except.bind, hg, ih]
    · simp only [Bool.not_eq_true] at hg
      simp [Except.bind, hg]

/-- When text extraction succeeds on every record, the exclusion
comprehension is a List.filter by the per-record check. -/
theorem filterKeep_ok (field : String) (txtOf : Value → String)
    (ets : List (List String)) (results : List Value)
    (h : ∀ r ∈ results, recordText r field = Except.ok (txtOf r)) :
    filterKeep results ets field
      = Except.ok (results.filter
          (fun r => ets.all (fun g => g.all (fun t => !(strHas (pyLower (txtOf r)) (pyLower t)))))) := by
  induction results with
  | nil => rfl
  | cons r rs ih =>
    have hr := h r (List.mem_cons_self r rs)
    have hrs : ∀ x ∈ rs, recordText x field = Except.ok (txtOf x) :=
      fun x hx => h x (List.mem_cons_of_mem r hx)
    simp only [filterKeep, recordKeeps_ok r field (txtOf r) hr, ih hrs, List.filter_cons]
    by_cases hk : (ets.all (fun g => g.all (fun t => !(strHas (pyLower (txtOf r)) (pyLower t))))) = true
    · simp [Except.bind, hk]
    · simp only [Bool.not_eq_true] at hk
      simp [Except.bind, hk]

/-- C3: create_tables on a fresh store does not return normally: after the
four CREATE TABLE IF NOT EXISTS statements would have produced exactly the
tables ingestion_log (file_name primary key, file_hash, record_type,
rows_ingested, timestamp) and device, foitext, foidev keyed by row_hash,
the index-creation f-string at db.py line 151 evaluates the unbound name
table and raises NameError before the commit, contradicting the claim and
the docstring and tests of the code. -/
theorem create_tables_name_error :
    create_tables [] = Except.error (PyErr.nameError "table") ∧
    (createTableIfNotExists (createTableIfNotExists (createTableIfNotExists
        (createTableIfNotExists [] ingestion_log_table) device_table)
        foitext_table) foidev_table).map Table.name
      = ["ingestion_log", "device", "foitext", "foidev"] ∧
    ingestion_log_table.columns.map Column.name
      = ["file_name", "file_hash", "record_type", "rows_ingested", "ingestion_timestamp"] ∧
    (ingestion_log_table.columns.filter Column.primaryKey).map Column.name = ["file_name"] ∧
    device_table.columns = [⟨"row_hash", true⟩] ∧
    foitext_table.columns = [⟨"row_hash", true⟩] ∧
    foidev_table.columns = [⟨"row_hash", true⟩] :=
  ⟨rfl, rfl, rfl, rfl, rfl, rfl, rfl⟩

/-- C5: for a non-429 HTTP error, the handler raises APIResponseError with
the server-supplied error.message when the body is a JSON object carrying
one, and with the default message when the JSON object has no error key;
but when the body is not parseable JSON the except block calls
logger.exception() without its required argument, so a TypeError
propagates instead of the claimed APIResponseError with a default
message. -/
theorem fetch_http_error_non_429 :
    fetchHTTPError 400 none
        (some (Value.dict [("error",
          Value.dict [("code", Value.str "400"),
                      ("message", Value.str "Invalid query parameter")])]))
      = PyErr.apiResponse 400 (Value.str "Invalid query parameter") ∧
    fetchHTTPError 500 none (some (Value.dict [("status", Value.str "oops")]))
      = PyErr.apiResponse 500 (Value.str "Unknown error") ∧
    fetchHTTPError 400 none none = PyErr.typeError :=
  ⟨rfl, rfl, rfl⟩

/-- C6: a 429 response raises APIRateLimitError whose reset_time is None
when the X-RateLimit-Reset header is absent, and the integer value of the
header when it is present and carries one. -/
theorem rate_limit_reset (body : Option Value) :
    fetchHTTPError 429 none body = PyErr.rateLimit none ∧
    (∀ (s : String) (n : Int), s ≠ "" → pyInt s = some n →
      fetchHTTPError 429 (some s) body = PyErr.rateLimit (some n)) := by
  constructor
  · rfl
  · intro s n hs hn
    simp [fetchHTTPError, hs, hn]

/-- Witness for C6 at the concrete header value 60. -/
theorem rate_limit_reset_witness :
    fetchHTTPError 429 (some "60") none = PyErr.rateLimit (some 60) :=
  (rate_limit_reset none).2 "60" 60 (by decide) rfl

/-- C7: term compilation promotes the bare string of the input
(mri, [stapes, tympanostomy]) to a singleton group yielding
[[mri], [stapes, tympanostomy]], and the rendered query parenthesizes each
group, joins terms with OR and groups with AND, and substitutes spaces
with the plus separator, producing exactly
(mri)+AND+(stapes+OR+tympanostomy). -/
theorem term_compile_render :
    validate_search_terms [TermSpec.str "mri", TermSpec.group ["stapes", "tympanostomy"]]
      = [["mri"], ["stapes", "tympanostomy"]] ∧
    pyReplaceSpacePlus (renderQuery
        (validate_search_terms [TermSpec.str "mri", TermSpec.group ["stapes", "tympanostomy"]]))
      = "(mri)+AND+(stapes+OR+tympanostomy)" :=
  ⟨rfl, rfl⟩

/-- C8: classify_file matches case-insensitively in the fixed priority
order foitext, foidev, device (a name containing foitext classifies as
foitext whatever else it contains), returns none when no marker occurs,
and classifies the three concrete examples as claimed. -/
theorem classify_file_priority :
    (∀ f : String, strHas (pyLower f) "foitext" = true →
      classify_file f = some "foitext") ∧
    (∀ f : String, strHas (pyLower f) "foitext" = false →
      strHas (pyLower f) "foidev" = true → classify_file f = some "foidev") ∧
    (∀ f : String, strHas (pyLower f) "foitext" = false →
      strHas (pyLower f) "foidev" = false → strHas (pyLower f) "device" = true →
      classify_file f = some "device") ∧
    (∀ f : String, strHas (pyLower f) "foitext" = false →
      strHas (pyLower f) "foidev" = false → strHas (pyLower f) "device" = false →
      classify_file f = none) ∧
    classify_file "DEVICE2000.ZIP" = some "device" ∧
    classify_file "foitext1996.zip" = some "foitext" ∧
    classify_file "readme.txt" = none := by
  refine ⟨?_, ?_, ?_, ?_, rfl, rfl, rfl⟩
  · intro f h1
    simp [classify_file, h1]
  · intro f h1 h2
    simp [classify_file, h1, h2]
  · intro f h1 h2 h3
    simp [classify_file, h1, h2, h3]
  · intro f h1 h2 h3
    simp [classify_file, h1, h2, h3]

/-- Witness for C8 at a name containing both foitext and device: the
priority order classifies it as foitext. -/
theorem classify_file_priority_witness :
    classify_file "device_foitext.zip" = some "foitext" :=
  classify_file_priority.1 "device_foitext.zip" rfl

/-- C9: filter_results is the identity when exclude_terms is None or the
empty list, and returns the empty list on an empty record sequence for
every exclusion argument. -/
theorem filter_results_identity :
    (∀ (results : List Value) (field : String),
      filter_results results none field = Except.ok results) ∧
    (∀ (results : List Value) (field : String),
      filter_results results (some []) field = Except.ok results) ∧
    (∀ (exclude_terms : Option (List (List String))) (field : String),
      filter_results [] exclude_terms field = Except.ok []) := by
  refine ⟨fun results field => rfl, fun results field => rfl, fun excl field => ?_⟩
  match excl with
  | none => rfl
  | some [] => rfl
  | some (g :: gs) => rfl

/-- C1 counterexample: the record whose field text is Artifact in MRI
matches the artifact group but not the metal group, so under the claimed
rule (remove only records matching every group) it must survive; the code
removes it. -/
theorem filter_not_every_group_counterexample :
    recordText artifactRec "mdr_text.text" = Except.ok "Artifact in MRI" ∧
    strHas (pyLower "Artifact in MRI") (pyLower "metal") = false ∧
    filter_results [artifactRec] (some [["artifact"], ["metal"]]) "mdr_text.text"
      = Except.ok [] :=
  ⟨rfl, rfl, rfl⟩

/-- C1 amended: when text extraction succeeds on every record,
filter_results returns exactly the records that match no exclusion group
at all — a record is removed as soon as any term of any group occurs
case-insensitively in its field text.  In the spec example both Artifact
records are removed and only MRI report survives. -/
theorem filter_results_excludes_any_group (results : List Value)
    (ets : List (List String)) (field : String) (txtOf : Value → String)
    (h : ∀ r ∈ results, recordText r field = Except.ok (txtOf r)) :
    filter_results results (some ets) field
      = Except.ok (results.filter
          (fun r => !(ets.any (fun g => g.any
              (fun t => strHas (pyLower (txtOf r)) (pyLower t)))))) := by
  have key : (fun r : Value => ets.all
        (fun g => g.all (fun t => !(strHas (pyLower (txtOf r)) (pyLower t)))))
      = (fun r : Value => !(ets.any (fun g => g.any
          (fun t => strHas (pyLower (txtOf r)) (pyLower t))))) := by
    funext r
    have inner : (fun g : List String =>
          g.all (fun t => !(strHas (pyLower (txtOf r)) (pyLower t))))
        = (fun g : List String =>
            !(g.any (fun t => strHas (pyLower (txtOf r)) (pyLower t)))) := by
      funext g
      exact list_all_not g _
    rw [inner]
    exact list_all_not ets _
  match ets with
  | [] =>
    simp [filter_results, List.filter_true]
  | g :: gs =>
    have hne : (g :: gs).isEmpty = false := rfl
    simp only [filter_results, hne, Bool.false_eq_true, if_false]
    rw [filterKeep_ok field txtOf (g :: gs) results h, key]

/-- Witness for C1 on the three spec records. -/
theorem filter_results_excludes_any_group_witness :
    filter_results [mriReportRec, artifactRec, artifactMetalRec]
        (some [["artifact"], ["metal"]]) "mdr_text.text"
      = Except.ok [mriReportRec] := by
  have h := filter_results_excludes_any_group
    [mriReportRec, artifactRec, artifactMetalRec] [["artifact"], ["metal"]]
    "mdr_text.text"
    (fun r => match recordText r "mdr_text.text" with
              | Except.ok t => t
              | Except.error _ => "")
    (by intro r hr
        fin_cases hr <;> rfl)
  rw [h]
  rfl

/-- C2 counterexample: on a record whose field text is Artifact in MRI
with exclusion groups [[artifact], [metal]], the remote filter_results
check removes the record while the local query path keeps it, so the two
paths do not implement the same exclusion semantics. -/
theorem local_vs_remote_counterexample :
    recordText artifactRec "mdr_text.text" = Except.ok "Artifact in MRI" ∧
    recordKeeps artifactRec "mdr_text.text" [["artifact"], ["metal"]] = Except.ok false ∧
    localKeeps "Artifact in MRI" (some [["artifact"], ["metal"]]) = true :=
  ⟨rfl, rfl, rfl⟩

/-- C2 amended: the remote exclusion check is at least as strict as the
local one — every record the remote path keeps, the local path keeps when
applied to the same field text — and the two decisions coincide whenever
at most one exclusion group is supplied; with two or more groups they can
differ, as the counterexample shows. -/
theorem local_exclusion_vs_remote (r : Value) (field txt : String)
    (ets : List (List String))
    (h : recordText r field = Except.ok txt) :
    (recordKeeps r field ets = Except.ok true → localKeeps txt (some ets) = true) ∧
    (ets.length ≤ 1 →
      recordKeeps r field ets = Except.ok (localKeeps txt (some ets))) := by
  have hrk := recordKeeps_ok r field txt h ets
  constructor
  · intro hk
    rw [hrk] at hk
    have hall : (ets.all (fun g => g.all
        (fun t => !(strHas (pyLower txt) (pyLower t))))) = true := by
      injection hk
    match ets with
    | [] => rfl
    | g :: gs =>
      have hg : g.all (fun t => !(strHas (pyLower txt) (pyLower t))) = true := by
        simp only [List.all_cons, Bool.and_eq_true] at hall
        exact hall.1
      have hgm : localGroupMatches txt g = false := by
        rw [localGroupMatches_any]
        rw [list_all_not] at hg
        simpa using hg
      simp [localKeeps, localShouldExclude, hgm]
  · intro hlen
    cases ets with
    | nil => exact hrk.trans rfl
    | cons g gs =>
      cases gs with
      | nil =>
        rw [hrk]
        congr 1
        simp only [localKeeps, List.isEmpty_cons, Bool.false_eq_true, if_false,
          localShouldExclude, localGroupMatches_any]
        rw [List.all_cons, List.all_nil, Bool.and_true, list_all_not]
        cases hA : (g.any (fun t => strHas (pyLower txt) (pyLower t))) <;> simp
      | cons g2 gs2 => simp at hlen


/-- Witness for C2 with a single exclusion group on the MRI report
record. -/
theorem local_exclusion_vs_remote_witness :
    recordKeeps mriReportRec "mdr_text.text" [["artifact"]]
      = Except.ok (localKeeps "MRI report" (some [["artifact"]])) :=
  (local_exclusion_vs_remote mriReportRec "mdr_text.text" "MRI report"
    [["artifact"]] rfl).2 (by decide)

/-- C10 counterexample: with the non-empty exclusion list consisting of
one empty group, a record lacking the field key is silently kept with no
error, because an empty group never forces text extraction. -/
theorem filter_missing_key_counterexample :
    filter_results [missingFieldRec] (some [[]]) "text"
      = Except.ok [missingFieldRec] :=
  rfl

/-- C10 amended: when at least one exclusion group carries a term and
extracting the field path from the record raises a key-lookup error, that
KeyError propagates out of filter_results instead of the record being
silently kept or dropped. -/
theorem filter_missing_key_raises (r : Value) (ets : List (List String))
    (field k : String)
    (hne : ets.any (fun g => !g.isEmpty) = true)
    (hext : recordText r field = Except.error (PyErr.keyError k)) :
    filter_results [r] (some ets) field = Except.error (PyErr.keyError k) := by
  have hrk : recordKeeps r field ets = Except.error (PyErr.keyError k) := by
    induction ets with
    | nil => simp at hne
    | cons g gs ih =>
      cases g with
      | nil =>
        have hgs : gs.any (fun g => !g.isEmpty) = true := by
          simpa using hne
        simp only [recordKeeps, groupKeeps, exceptBindOk, if_true]
        exact ih hgs
      | cons t ts =>
        simp [recordKeeps, groupKeeps, hext]
  have hEmp : ets.isEmpty = false := by
    cases ets with
    | nil => simp at hne
    | cons g gs => rfl
  simp only [filter_results, hEmp, Bool.false_eq_true, if_false]
  simp [filterKeep, hrk]

/-- Witness for C10 on a record with no text key and one non-empty
exclusion group. -/
theorem filter_missing_key_raises_witness :
    filter_results [missingFieldRec] (some [["artifact"]]) "text"
      = Except.error (PyErr.keyError "text") :=
  filter_missing_key_raises missingFieldRec [["artifact"]] "text" "text"
    (by decide) rfl

/-- Scanning for the closing angle bracket past a prefix that contains
none finds it right after the prefix. -/
theorem findIdxGt (r : List Char) : ∀ (l : List Char) (i : Nat),
    (∀ c ∈ l, c ≠ '>') →
    List.findIdx? (fun a => a == '>') (l ++ '>' :: r) i = some (i + l.length) := by
  intro l
  induction l with
  | nil =>
    intro i h
    simp
  | cons c cs ih =>
    intro i h
    have hc : (c == '>') = false := by
      simpa using h c (List.mem_cons_self c cs)
    simp only [List.cons_append, List.findIdx?_cons, hc, Bool.false_eq_true, if_false]
    rw [ih (i + 1) (fun x hx => h x (List.mem_cons_of_mem c hx))]
    congr 1
    simp only [List.length_cons]
    omega

/-- The Link-header slice of a well-formed header recovers exactly the URL
between the angle brackets. -/
theorem extractLink_wellFormed (u suffix : String) (hnogt : ∀ c ∈ u.data, c ≠ '>') :
    extractLink ("<" ++ u ++ ">" ++ suffix) = u := by
  unfold extractLink
  have hdata : ("<" ++ u ++ ">" ++ suffix).data
      = '<' :: (u.data ++ '>' :: suffix.data) := by
    simp [String.data_append]
  rw [hdata]
  have hlt : List.findIdx? (fun a => a == '<') ('<' :: (u.data ++ '>' :: suffix.data)) 0
      = some 0 := by
    simp
  have hgt : List.findIdx? (fun a => a == '>') ('<' :: (u.data ++ '>' :: suffix.data)) 0
      = some (1 + u.data.length) := by
    simp only [List.findIdx?_cons]
    have : (('<' : Char) == '>') = false := by decide
    rw [this]
    simp only [Bool.false_eq_true, if_false]
    exact findIdxGt suffix.data u.data 1 hnogt
  simp only [hlt, hgt, Nat.zero_add, List.drop_succ_cons, List.drop_zero]
  have htake : (u.data ++ '>' :: suffix.data).take (1 + u.data.length - 1) = u.data := by
    have h1 : 1 + u.data.length - 1 = u.data.length := by omega
    rw [h1]
    exact List.take_left u.data ('>' :: suffix.data)
  rw [htake]

/-- On a well-formed Link header carrying a nonempty URL, the loop
continues to exactly that URL. -/
theorem nextUrl_wellFormed (u suffix : String) (hu : u ≠ "")
    (hnogt : ∀ c ∈ u.data, c ≠ '>') :
    nextUrl (some ("<" ++ u ++ ">" ++ suffix)) = some u := by
  have hheader : ("<" ++ u ++ ">" ++ suffix) ≠ "" := by
    intro hcon
    have hd := congrArg String.data hcon
    simp [String.data_append] at hd
  simp only [nextUrl]
  rw [if_neg hheader]
  simp only [extractLink_wellFormed u suffix hnogt]
  rw [if_neg hu]

/-- C4: one iteration of the paging loop on a well-formed page stops with
the accumulated results as soon as the post-filter count reaches the
limit, or as soon as a nonzero max_pages is reached by the page counter,
whatever the Link header says; when neither cap triggers it continues to
the URL extracted from the Link header, and stops when the header is
absent; max_pages equal to zero never caps. -/
theorem fetch_pages_stops (server : String → APIResponse)
    (excl : Option (List (List String))) (field url : String)
    (fr results : List Value) (limit maxPages fuel pages : Nat)
    (hurl : (pyStartsWith url "http:" || pyStartsWith url "https:") = true)
    (herr : (server url).errorVal = none)
    (hmeta : (server url).hasMeta = true)
    (hfilter : filter_results (server url).results excl field = Except.ok fr) :
    let results' := if fr.isEmpty then results else results ++ fr
    let pages' := pages + 1
    (limit ≤ results'.length →
      fetchPages server excl field limit maxPages (fuel + 1) (some url) results pages
        = some (Except.ok (results', pages'))) ∧
    (maxPages ≠ 0 → maxPages ≤ pages' →
      fetchPages server excl field limit maxPages (fuel + 1) (some url) results pages
        = some (Except.ok (results', pages'))) ∧
    (results'.length < limit → (maxPages = 0 ∨ pages' < maxPages) →
      fetchPages server excl field limit maxPages (fuel + 1) (some url) results pages
        = fetchPages server excl field limit maxPages fuel
            (nextUrl (server url).linkHeader) results' pages') ∧
    ((server url).linkHeader = none →
      results'.length < limit → (maxPages = 0 ∨ pages' < maxPages) →
      fetchPages server excl field limit maxPages (fuel + 1) (some url) results pages
        = some (Except.ok (results', pages'))) ∧
    (∀ (u suffix : String), u ≠ "" → (∀ c ∈ u.data, c ≠ '>') →
      nextUrl (some ("<" ++ u ++ ">" ++ suffix)) = some u) := by
  intro results' pages'
  have hnotcap : results'.length < limit → (maxPages = 0 ∨ pages' < maxPages) →
      ¬(limit ≤ results'.length ∨ (maxPages ≠ 0 ∧ maxPages ≤ pages')) := by
    intro hl hmp hcap
    rcases hcap with hcap | ⟨hne, hle⟩
    · exact absurd hcap (Nat.not_le.mpr hl)
    · rcases hmp with h0 | hp
      · exact hne h0
      · exact absurd hle (Nat.not_le.mpr hp)
  have hstep : fetchPages server excl field limit maxPages (fuel + 1) (some url) results pages
      = (if limit ≤ results'.length ∨ (maxPages ≠ 0 ∧ maxPages ≤ pages') then
           some (Except.ok (results', pages'))
         else fetchPages server excl field limit maxPages fuel
           (nextUrl (server url).linkHeader) results' pages') := by
    simp only [fetchPages, hurl, Bool.not_true, Bool.false_eq_true, if_false, herr, hfilter,
      hmeta, if_true]
  refine ⟨?_, ?_, ?_, ?_, ?_⟩
  · intro hl
    rw [hstep, if_pos (Or.inl hl)]
  · intro hm hp
    rw [hstep, if_pos (Or.inr ⟨hm, hp⟩)]
  · intro hl hmp
    rw [hstep, if_neg (hnotcap hl hmp)]
  · intro hnone hl hmp
    rw [hstep, if_neg (hnotcap hl hmp), hnone]
    cases fuel <;> rfl
  · exact fun u suffix hu hn => nextUrl_wellFormed u suffix hu hn

/-- A fixed well-formed response used to witness the paging theorem. -/
def demoResp : APIResponse :=
  ⟨200, none, [mriReportRec], true, some "<https://api.fda.gov/page2>; rel=next"⟩

/-- A server that answers every request with demoResp. -/
def demoServer : String → APIResponse := fun _ => demoResp

/-- Witness for C4: with limit one, the loop stops after the first page
even though the response carries a continuation link. -/
theorem fetch_pages_stops_witness :
    fetchPages demoServer none "mdr_text.text" 1 0 1
        (some "https://api.fda.gov/start") [] 0
      = some (Except.ok ([mriReportRec], 1)) :=
  (fetch_pages_stops demoServer none "mdr_text.text" "https://api.fda.gov/start"
    [mriReportRec] [] 1 0 0 0 rfl rfl rfl rfl).1 (by decide)

end MaudeCli

